import Mathlib

set_option maxRecDepth 4000

/-
Verification of the code-repository analysis toolkit in SW_Dev_MCP.py.
Each Python tool that the claims touch is shallowly embedded below: the
filesystem traversal is modelled as an explicit list of entries in visit
order, line reading as a list of newline-free line strings, regular
expression objects either as abstract matching functions (for the pattern
supplied by the caller of search_code) or as concrete executable matchers
translated from the fixed regex literals in the source (for find_todos and
extract_imports), and exceptions as Except values.
-/

namespace SWDevMCP

/-- Python whitespace as recognised by str.strip / str.rstrip and the regex
class backslash-s, restricted to the ASCII range that the claims exercise. -/
def isPySpace (c : Char) : Bool :=
  c = ' ' || c = '\t' || c = '\n' || c = '\r' || c = '\x0b' || c = '\x0c'

/-- Model of Python str.strip(): drop leading and trailing whitespace. -/
def pyStrip (s : String) : String :=
  String.mk (((s.data.dropWhile isPySpace).reverse.dropWhile isPySpace).reverse)

/-- Model of Python str.rstrip(): drop trailing whitespace only. -/
def pyRstrip (s : String) : String :=
  String.mk ((s.data.reverse.dropWhile isPySpace).reverse)

/-- Model of the Python slice s[:n]. -/
def pySlice (s : String) (n : Nat) : String :=
  String.mk (s.data.take n)

/-- Model of the Python slice s[1:]. -/
def pyDropOne (s : String) : String :=
  String.mk (s.data.drop 1)

/-- A single-quote character, as interpolated into Python message strings. -/
def sq : String := String.mk [Char.ofNat 39]

/-- Model of pathlib PurePath.suffix on a file name: the text from the last
dot onwards, but only when that dot sits strictly inside the name
(0 < i < len(name) - 1 for i the index of the last dot); otherwise empty. -/
def pySuffix (name : String) : String :=
  if name.data.reverse.indexOf '.' < name.data.length
      && 0 < name.data.reverse.indexOf '.'
      && 0 < name.data.length - 1 - name.data.reverse.indexOf '.' then
    String.mk (name.data.drop (name.data.length - 1 - name.data.reverse.indexOf '.'))
  else ""

/-- The bare extension file_path.suffix[1:] used by search_code and
count_lines_of_code. -/
def bareExt (name : String) : String :=
  pyDropOne (pySuffix name)

/-- The shared skip test
`if extensions and file_path.suffix[1:] not in extensions: continue`:
a file passes when no extension list was supplied, when the list is falsy
(empty), or when its bare suffix is listed. -/
def extFilterPass (exts : Option (List String)) (s : String) : Bool :=
  match exts with
  | none => true
  | some l => if l.isEmpty then true else l.contains s

/-- One filesystem entry as yielded by Path(root).rglob, in visit order.
`lines` is the sequence the Python line iterator would produce, with the
line terminators already stripped (no line contains a newline character);
`readable` is false when open() raises for this path, which the per-file
bare except handlers turn into skipping the file. -/
structure FileEntry where
  path : String
  name : String
  isFile : Bool
  readable : Bool
  lines : List String
deriving Repr, DecidableEq

/-- The filesystem as one operation sees it: whether the requested root
exists and is a directory, and the rglob visit sequence when it is. -/
structure FSView where
  rootValid : Bool
  entries : List FileEntry

/-- Model of iterating Path(directory).rglob(...): CPython pathlib's
selector checks is_dir on the starting point and returns an empty iterator
when the root is missing or not a directory (and the newer glob machinery
of 3.13+ likewise suppresses the scandir OSError), so an invalid root
yields an empty visit sequence and no exception; a valid root yields all
descendants in visit order. -/
def pyRglob (fs : FSView) : List FileEntry :=
  if fs.rootValid then fs.entries else []

/-- A regex pattern as handed to re.search with re.IGNORECASE: the raw
pattern text together with its matching function when it compiles;
`compiled = none` models a pattern on which the re module raises re.error
at the first use. -/
structure Pattern where
  raw : String
  compiled : Option (String → Bool)

/-- The (line number, reported text) pairs produced for one opened file by
the inner loop of search_code: enumerate lines from 1, keep the lines the
pattern matches, report line.strip(). -/
def fileLineHits (m : String → Bool) (ls : List String) : List (Nat × String) :=
  ((List.enumFrom 1 ls).filter (fun p => m p.2)).map (fun p => (p.1, pyStrip p.2))

/-- The contribution of one candidate file to search_code's results: nothing
when open() fails (the bare except skips the file) and nothing when the
pattern does not compile (re.search raises on the first line and the same
handler skips the file). -/
def fileSearchHits (pat : Pattern) (f : FileEntry) : List (Nat × String) :=
  if f.readable then
    match pat.compiled with
    | none => []
    | some m => fileLineHits m f.lines
  else []

structure SearchHit where
  fileIdx : Nat
  path : String
  lineNumber : Nat
  lineText : String
deriving Repr, DecidableEq

/-- Per-file inclusion test of search_code and count_lines_of_code:
`if file_path.is_file():` followed by the extension skip. -/
def includeFile (exts : Option (List String)) (f : FileEntry) : Bool :=
  f.isFile && extFilterPass exts (bareExt f.name)

/-- search_code's traversal from file-visit index k onwards: each included
file appends its hits, tagged with the index of the file in visit order. -/
def searchHitsFrom (pat : Pattern) (exts : Option (List String)) :
    Nat → List FileEntry → List SearchHit
  | _, [] => []
  | k, f :: rest =>
    (if includeFile exts f then
      (fileSearchHits pat f).map (fun h => ⟨k, f.path, h.1, h.2⟩)
     else []) ++ searchHitsFrom pat exts (k + 1) rest

/-- All hits accumulated by search_code's traversal, in accumulation order. -/
def searchHits (pat : Pattern) (exts : Option (List String))
    (files : List FileEntry) : List SearchHit :=
  searchHitsFrom pat exts 0 files

/-- One results entry: f-string path:line_num: stripped text. -/
def formatHit (h : SearchHit) : String :=
  h.path ++ ":" ++ toString h.lineNumber ++ ": " ++ h.lineText

/-- The files on which search_code's loop calls open(): every regular file
that passes the extension filter — the open call precedes any use of the
pattern, so this list does not depend on whether the pattern compiles. -/
def filesOpened (exts : Option (List String)) (files : List FileEntry) : List String :=
  (files.filter (fun f => includeFile exts f)).map (fun f => f.path)

/-- search_code up to its outer exception handler. No step of the loop can
raise: rglob yields its entries or nothing, and per-file faults are
swallowed by the inner bare except, so this body always returns ok and the
error branch of the outer handler is never reached for this tool. -/
def search_code_core (pat : Pattern) (exts : Option (List String))
    (fs : FSView) : Except String String :=
  let results := (searchHits pat exts (pyRglob fs)).map formatHit
  if results.isEmpty then
    Except.ok ("No matches found for pattern " ++ sq ++ pat.raw ++ sq)
  else
    Except.ok (String.intercalate "\n" (results.take 100))

/-- The full search_code tool: the outer handler renders a raised error. -/
def search_code (pat : Pattern) (exts : Option (List String)) (fs : FSView) : String :=
  match search_code_core pat exts fs with
  | Except.ok s => s
  | Except.error e => "Error searching code: " ++ e

/-- find_files up to its outer handler. Path(directory).rglob(pattern) both
raises on an invalid root and yields only the entries whose names the glob
pattern selects; the selection itself is modelled by the abstract predicate
nameMatch applied to each visited entry. -/
def find_files_core (nameMatch : String → Bool) (patRaw : String)
    (fs : FSView) : Except String String :=
  let ms := ((pyRglob fs).filter (fun f => nameMatch f.name && f.isFile)).map
    (fun f => f.path)
  if ms.isEmpty then
    Except.ok ("No files found matching " ++ sq ++ patRaw ++ sq)
  else Except.ok (String.intercalate "\n" ms)

/-- The full find_files tool. -/
def find_files (nameMatch : String → Bool) (patRaw : String) (fs : FSView) : String :=
  match find_files_core nameMatch patRaw fs with
  | Except.ok s => s
  | Except.error e => "Error finding files: " ++ e

/-- The accumulator of count_lines_of_code: the Counter of per-extension
line counts as an insertion-ordered association list, plus the two running
totals. -/
structure CountAcc where
  stats : List (String × Nat)
  total_lines : Nat
  total_files : Nat
deriving Repr, DecidableEq

/-- Counter update stats[k] += n on an insertion-ordered association list. -/
def bump (stats : List (String × Nat)) (k : String) (n : Nat) : List (String × Nat) :=
  match stats with
  | [] => [(k, n)]
  | p :: rest => if p.1 = k then (p.1, p.2 + n) :: rest else p :: bump rest k n

/-- The bucket key `ext = file_path.suffix[1:] or "no extension"`. -/
def extKey (f : FileEntry) : String :=
  let s := bareExt f.name
  if s.isEmpty then "no extension" else s

/-- One iteration of the count_lines_of_code loop: an included file that
opens successfully adds its line count to its extension bucket and to
total_lines and bumps total_files; a file that fails to open is skipped. -/
def countStep (exts : Option (List String)) (acc : CountAcc) (f : FileEntry) : CountAcc :=
  if includeFile exts f then
    if f.readable then
      { stats := bump acc.stats (extKey f) f.lines.length,
        total_lines := acc.total_lines + f.lines.length,
        total_files := acc.total_files + 1 }
    else acc
  else acc

/-- The whole traversal of count_lines_of_code over the rglob sequence. -/
def countFold (exts : Option (List String)) (files : List FileEntry) : CountAcc :=
  files.foldl (countStep exts) ⟨[], 0, 0⟩

/-- count_lines_of_code up to its outer handler; as with search_code, no
step of the traversal can raise, so the body always returns ok. -/
def count_lines_core (exts : Option (List String)) (fs : FSView) :
    Except String CountAcc :=
  Except.ok (countFold exts (pyRglob fs))

/-- json.dumps(result, indent=2) for the summary dictionary; the extension
keys arising here contain no characters that JSON escaping would rewrite. -/
def countJson (acc : CountAcc) : String :=
  let extLines := acc.stats.map (fun p => "    \"" ++ p.1 ++ "\": " ++ toString p.2)
  let byExt :=
    if acc.stats.isEmpty then "\x7b\x7d"
    else "\x7b\n" ++ String.intercalate ",\n" extLines ++ "\n  \x7d"
  "\x7b\n  \"total_files\": " ++ toString acc.total_files ++
    ",\n  \"total_lines\": " ++ toString acc.total_lines ++
    ",\n  \"by_extension\": " ++ byExt ++ "\n\x7d"

/-- The full count_lines_of_code tool. -/
def count_lines_of_code (exts : Option (List String)) (fs : FSView) : String :=
  match count_lines_core exts fs with
  | Except.ok acc => countJson acc
  | Except.error e => "Error counting lines: " ++ e

/-- The fixed suffix allow-list of find_todos. -/
def todoExts : List String :=
  [".py", ".js", ".ts", ".java", ".cpp", ".c", ".go", ".rs", ".rb", ".php"]

/-- Case-insensitive prefix test on character lists, modelling the effect of
re.IGNORECASE on the ASCII keyword alternatives. -/
def ciPrefix : List Char → List Char → Bool
  | [], _ => true
  | _ :: _, [] => false
  | k :: ks, c :: cs => (k.toUpper = c.toUpper) && ciPrefix ks cs

/-- The five alternation branches of the find_todos regex. -/
def markerKws : List (List Char) :=
  ["TODO".data, "FIXME".data, "NOTE".data, "XXX".data, "HACK".data]

/-- Try each branch KEYWORD followed by a colon at the current position; the
keywords begin with pairwise distinct letters, so at most one branch can
fire at a given position. Returns the keyword text as it appears in the
input (group 1) and the characters after the colon. -/
def tryKws : List (List Char) → List Char → Option (List Char × List Char)
  | [], _ => none
  | kw :: rest, cs =>
    if ciPrefix (kw ++ [':']) cs then
      some (cs.take kw.length, cs.drop (kw.length + 1))
    else tryKws rest cs

/-- Greedy regex `.+`: one or more characters none of which is a newline,
taking the maximal such run. -/
def dotPlus (cs : List Char) : Option (List Char) :=
  match cs with
  | [] => none
  | c :: _ => if c = '\n' then none else some (cs.takeWhile (fun d => d ≠ '\n'))

/-- Backtracking match of the regex tail backslash-s-star followed by a
captured `.+`, returning the capture: the whitespace run is consumed
greedily and handed back one character at a time until `.+` succeeds. -/
def wsDotPlus : List Char → Option (List Char)
  | [] => none
  | c :: cs =>
    if isPySpace c then
      match wsDotPlus cs with
      | some g => some g
      | none => dotPlus (c :: cs)
    else dotPlus (c :: cs)

/-- Leftmost search of (TODO|FIXME|NOTE|XXX|HACK):backslash-s-star(.+) in
one line, case-insensitively: returns (group 1 as matched, group 2). -/
def markerScan : List Char → Option (List Char × List Char)
  | [] => none
  | c :: cs =>
    match tryKws markerKws (c :: cs) with
    | some (kw, rest) =>
      match wsDotPlus rest with
      | some g2 => some (kw, g2)
      | none => markerScan cs
    | none => markerScan cs

structure MarkerHit where
  path : String
  lineNumber : Nat
  kind : String
  message : String
deriving Repr, DecidableEq

/-- The hits find_todos produces from one opened file: at most the first
match per line, marker kind upper-cased, message stripped. -/
def fileTodoHits (f : FileEntry) : List MarkerHit :=
  (List.enumFrom 1 f.lines).filterMap (fun p =>
    match markerScan p.2.data with
    | some (kw, msg) =>
      some ⟨f.path, p.1, String.mk (kw.map Char.toUpper), pyStrip (String.mk msg)⟩
    | none => none)

/-- All hits of find_todos: regular files whose full suffix is on the fixed
allow-list, skipping files that fail to open. -/
def todoHits (files : List FileEntry) : List MarkerHit :=
  (files.map (fun f =>
    if f.isFile && todoExts.contains (pySuffix f.name) && f.readable then
      fileTodoHits f
    else [])).flatten

/-- One rendered todos entry: f-string path:line_num - KIND: message. -/
def formatTodo (h : MarkerHit) : String :=
  h.path ++ ":" ++ toString h.lineNumber ++ " - " ++ h.kind ++ ": " ++ h.message

/-- find_todos up to its outer handler; as with search_code, no step of the
traversal can raise, so the body always returns ok. -/
def find_todos_core (fs : FSView) : Except String String :=
  let ts := (todoHits (pyRglob fs)).map formatTodo
  if ts.isEmpty then Except.ok "No TODOs/FIXMEs found"
  else Except.ok (String.intercalate "\n" ts)

/-- The full find_todos tool. -/
def find_todos (fs : FSView) : String :=
  match find_todos_core fs with
  | Except.ok s => s
  | Except.error e => "Error finding TODOs: " ++ e

/-- The candidate lines of find_duplicate_lines:
the comprehension keeps lines whose stripped length reaches min_length and
stores them rstripped. -/
def dupCandidates (ls : List String) (minLength : Nat) : List String :=
  (ls.filter (fun l => decide (minLength ≤ (pyStrip l).length))).map pyRstrip

/-- The key sequence of a Python dict or Counter built by insertion:
first occurrences, in order of first appearance. -/
def firstKeys (ls : List String) : List String :=
  ls.foldl (fun acc l => if acc.contains l then acc else acc ++ [l]) []

/-- Counter(lines).items(): keys in first-insertion order, each paired with
its total multiplicity. -/
def counterItems (ls : List String) : List (String × Nat) :=
  (firstKeys ls).map (fun k => (k, ls.count k))

/-- The duplicates dict comprehension: iteration order preserved, only
entries whose count exceeds one. -/
def dupFiltered (ls : List String) (minLength : Nat) : List (String × Nat) :=
  (counterItems (dupCandidates ls minLength)).filter (fun p => decide (1 < p.2))

/-- The order realised by sorted(..., key=lambda x: x[1], reverse=True):
counts descending. -/
def cntGe (a b : String × Nat) : Prop := b.2 ≤ a.2

instance : DecidableRel cntGe := fun a b => Nat.decLe b.2 a.2

instance : IsTotal (String × Nat) cntGe := ⟨fun a b => Nat.le_total b.2 a.2⟩

instance : IsTrans (String × Nat) cntGe := ⟨fun _ _ _ h1 h2 => Nat.le_trans h2 h1⟩

/-- sorted(duplicates.items(), key=lambda x: x[1], reverse=True). CPython's
sort is stable also under reverse=True; insertion under cntGe places each
element before the first already-placed element of equal or smaller count,
which reproduces exactly the stable descending order. -/
def dupSorted (ls : List String) (minLength : Nat) : List (String × Nat) :=
  List.insertionSort cntGe (dupFiltered ls minLength)

/-- The groups the tool reports: the top 20 of the sorted duplicates
(result[:20]). -/
def findDuplicateGroups (ls : List String) (minLength : Nat) : List (String × Nat) :=
  (dupSorted ls minLength).take 20

/-- One rendered duplicate group: the f-string opening parenthesis, count,
"x) ", the slice line[:80], and then the three dots appended by the format
string on every entry. -/
def renderGroup (p : String × Nat) : String :=
  "(" ++ toString p.2 ++ "x) " ++ pySlice p.1 80 ++ "..."

/-- The full find_duplicate_lines tool; content is none exactly when
Path(file_path).exists() is false. -/
def find_duplicate_lines (content : Option (List String)) (filePath : String)
    (minLength : Nat) : String :=
  match content with
  | none => "Error: File " ++ sq ++ filePath ++ sq ++ " not found"
  | some ls =>
    if (dupFiltered ls minLength).isEmpty then "No duplicate lines found"
    else String.intercalate "\n" (((dupSorted ls minLength).map renderGroup).take 20)

/-- Test of the anchored regex fragment pre `.+` mid at the start of s: some
nonempty run of characters stands between the literal pre and the literal
mid. Lines in this model carry no newline, so the dot is unrestricted. -/
def midMatch (pre mid : String) (s : String) : Bool :=
  let u := s.data.drop pre.data.length
  pre.data.isPrefixOf s.data &&
    (List.range u.length).any (fun i => decide (1 ≤ i) && mid.data.isPrefixOf (u.drop i))

/-- re.match of the Python-import regex against a stripped line:
anchored alternation of the literal prefix "import " and
"from " `.+` " import ". -/
def pyImportLine (s : String) : Bool :=
  "import ".data.isPrefixOf s.data || midMatch "from " " import " s

/-- re.match of the JavaScript-import regex against a stripped line:
anchored alternation of "import ", "const " `.+` " = require(", and
"var " `.+` " = require(". -/
def jsImportLine (s : String) : Bool :=
  "import ".data.isPrefixOf s.data ||
    midMatch "const " " = require(" s || midMatch "var " " = require(" s

/-- The loop of extract_imports over the lines of an opened file: each line
is stripped, tested first against the Python regex and then against the
JavaScript regex, and appended (stripped) on a match. -/
def extractImportLines (ls : List String) : List String :=
  ls.filterMap (fun line =>
    let s := pyStrip line
    if pyImportLine s then some s
    else if jsImportLine s then some s
    else none)

/-- The full extract_imports tool; content is none exactly when
Path(file_path).exists() is false. -/
def extract_imports (content : Option (List String)) (filePath : String) : String :=
  match content with
  | none => "Error: File " ++ sq ++ filePath ++ sq ++ " not found"
  | some ls =>
    let imps := extractImportLines ls
    if imps.isEmpty then "No imports found"
    else String.intercalate "\n" imps

/-! Theorems about the embedded operations. -/

/-- The sum of the per-extension line counts of a summary. -/
def statsSum (stats : List (String × Nat)) : Nat := (stats.map Prod.snd).sum

theorem statsSum_bump (stats : List (String × Nat)) (k : String) (n : Nat) :
    statsSum (bump stats k n) = statsSum stats + n := by
  induction stats with
  | nil => simp [bump, statsSum]
  | cons p rest ih =>
    by_cases h : p.1 = k
    · simp only [bump, if_pos h, statsSum, List.map_cons, List.sum_cons]
      omega
    · simp only [bump, if_neg h, statsSum, List.map_cons, List.sum_cons] at ih ⊢
      omega

theorem countStep_total (exts : Option (List String)) (acc : CountAcc) (f : FileEntry)
    (h : acc.total_lines = statsSum acc.stats) :
    (countStep exts acc f).total_lines = statsSum (countStep exts acc f).stats := by
  unfold countStep
  split
  · split
    · simp [statsSum_bump, h]
    · exact h
  · exact h

theorem countFold_total (exts : Option (List String)) :
    ∀ (files : List FileEntry) (acc : CountAcc),
      acc.total_lines = statsSum acc.stats →
      (files.foldl (countStep exts) acc).total_lines
        = statsSum ((files.foldl (countStep exts) acc)).stats := by
  intro files
  induction files with
  | nil => intro acc h; exact h
  | cons f rest ih => intro acc h; exact ih _ (countStep_total exts acc f h)

/-- C3: for every visited tree and extension filter, the summary built by
count_lines_of_code satisfies total_lines = sum of the per-extension line
counts, because each counted file adds the same quantity to its bucket and
to the running total. -/
theorem claim_C3 (exts : Option (List String)) (files : List FileEntry) :
    (countFold exts files).total_lines = statsSum (countFold exts files).stats :=
  countFold_total exts files ⟨[], 0, 0⟩ rfl

def cppFileC8 : FileEntry := ⟨"./x.cpp", "x.cpp", true, true, ["// TODO: fix this"]⟩

def mdFileC8 : FileEntry := ⟨"./x.md", "x.md", true, true, ["// TODO: fix this"]⟩

/-- C8: find_todos on the line // TODO: fix this inside a .cpp file yields
exactly one hit with kind TODO and message fix this; the identical line
inside a .md file yields none, .md being absent from the allow-list. -/
theorem claim_C8 :
    todoHits [cppFileC8] = [⟨"./x.cpp", 1, "TODO", "fix this"⟩]
      ∧ todoHits [mdFileC8] = [] := by
  exact ⟨rfl, rfl⟩

/-- C9: extract_imports on a file whose lines are import os, an indented
assignment, and from foo import bar returns exactly the two import lines in
file order and nothing else. -/
theorem claim_C9 :
    extractImportLines ["import os", "    x = 1", "from foo import bar"]
      = ["import os", "from foo import bar"] := by
  rfl

def badPatC1 : Pattern := ⟨"(", none⟩

def fsC1 : FSView := ⟨true, [⟨"./a.py", "a.py", true, true, ["hello world"]⟩]⟩

/-- C1 counterexample: on a valid root holding one readable file, the
uncompilable pattern left-parenthesis is swallowed by the bare per-file
except handler: the operation returns the ordinary no-matches sentinel, an
ok-class result rather than an error, and the traversal still opens the
file (the open call precedes any use of the pattern). -/
theorem counterexample_C1 :
    search_code_core badPatC1 none fsC1
        = Except.ok ("No matches found for pattern " ++ sq ++ "(" ++ sq)
      ∧ search_code badPatC1 none fsC1
        = "No matches found for pattern " ++ sq ++ "(" ++ sq
      ∧ filesOpened none fsC1.entries = ["./a.py"] := by
  exact ⟨rfl, rfl, rfl⟩

theorem fileSearchHits_none (raw : String) (f : FileEntry) :
    fileSearchHits ⟨raw, none⟩ f = [] := by
  unfold fileSearchHits
  split <;> rfl

theorem searchHitsFrom_none (raw : String) (exts : Option (List String)) :
    ∀ (k : Nat) (files : List FileEntry), searchHitsFrom ⟨raw, none⟩ exts k files = [] := by
  intro k files
  induction files generalizing k with
  | nil => rfl
  | cons f rest ih =>
    unfold searchHitsFrom
    rw [fileSearchHits_none, ih]
    simp

/-- C1 amended: an invalid regex does not fail the operation and does not
prevent traversal: re.search raises inside the per-file loop, the bare
except handler skips each file in turn, the scan runs over the whole tree
with zero hits, and search_code returns the ordinary no-matches sentinel
as an ok-class result. -/
theorem amended_C1 (raw : String) (exts : Option (List String)) (fs : FSView)
    (h : fs.rootValid = true) :
    search_code_core ⟨raw, none⟩ exts fs
        = Except.ok ("No matches found for pattern " ++ sq ++ raw ++ sq)
      ∧ searchHits ⟨raw, none⟩ exts fs.entries = [] := by
  have hz : searchHits ⟨raw, none⟩ exts fs.entries = [] :=
    searchHitsFrom_none raw exts 0 fs.entries
  refine ⟨?_, hz⟩
  unfold search_code_core pyRglob
  rw [h]
  simp only [if_true]
  rw [hz]
  rfl

/-- Witness for the amended C1 theorem at a concrete invalid pattern and a
concrete one-file tree. -/
theorem amended_C1_witness :
    search_code_core ⟨"(", none⟩ none fsC1
        = Except.ok ("No matches found for pattern " ++ sq ++ "(" ++ sq)
      ∧ searchHits ⟨"(", none⟩ none fsC1.entries = [] :=
  amended_C1 "(" none fsC1 rfl

def fileC6 : FileEntry := ⟨"./b.py", "b.py", true, true, ["  foo"]⟩

def patC6 : Pattern := ⟨"foo", some (fun s => s == "  foo")⟩

/-- C6 counterexample: a matching line that begins with two spaces is
reported as its strip, which discards the leading whitespace, so the hit
text differs from the merely trailing-trimmed source line. -/
theorem counterexample_C6 :
    (searchHits patC6 none [fileC6]).map (fun h => h.lineText) = ["foo"]
      ∧ pyRstrip "  foo" = "  foo"
      ∧ ("foo" : String) ≠ "  foo" := by
  refine ⟨rfl, rfl, by decide⟩

theorem get_of_mem_enumFrom {α : Type} :
    ∀ (n : Nat) (l : List α) (p : Nat × α),
      p ∈ List.enumFrom n l → n ≤ p.1 ∧ l[p.1 - n]? = some p.2 := by
  intro n l
  induction l generalizing n with
  | nil => intro p hp; simp [List.enumFrom] at hp
  | cons a rest ih =>
    intro p hp
    simp only [List.enumFrom, List.mem_cons] at hp
    rcases hp with h | h
    · subst h
      simp
    · obtain ⟨h1, h2⟩ := ih (n + 1) p h
      refine ⟨by omega, ?_⟩
      have hidx : p.1 - n = (p.1 - (n + 1)) + 1 := by omega
      rw [hidx]
      simpa using h2

/-- C6 amended: each reported hit text is the source line with BOTH leading
and trailing whitespace removed (line.strip()): at the reported 1-based
line number the source line strips to the hit text and matches the
pattern. -/
theorem amended_C6 (m : String → Bool) (ls : List String) (p : Nat × String)
    (hp : p ∈ fileLineHits m ls) :
    1 ≤ p.1 ∧ (ls[p.1 - 1]?).map pyStrip = some p.2
      ∧ (ls[p.1 - 1]?).map m = some true := by
  unfold fileLineHits at hp
  simp only [List.mem_map, List.mem_filter] at hp
  obtain ⟨q, ⟨hq, hmq⟩, hpq⟩ := hp
  obtain ⟨h1, h2⟩ := get_of_mem_enumFrom 1 ls q hq
  subst hpq
  simp only [h2]
  exact ⟨h1, rfl, by simp [hmq]⟩

/-- Witness for the amended C6 theorem at a concrete line with whitespace
on both sides. -/
theorem amended_C6_witness :
    1 ≤ ((1, "x") : Nat × String).1
      ∧ ((([" x "] : List String))[((1, "x") : Nat × String).1 - 1]?).map pyStrip
          = some ((1, "x") : Nat × String).2
      ∧ ((([" x "] : List String))[((1, "x") : Nat × String).1 - 1]?).map
          (fun s => s == " x ") = some true :=
  amended_C6 (fun s => s == " x ") [" x "] (1, "x") (by decide)

/-- C7 counterexample: a duplicated line of exactly 10 characters is
rendered with the three-dot cut-off indicator although it does not exceed
80 characters, because the format string appends the dots on every entry. -/
theorem counterexample_C7 :
    find_duplicate_lines (some ["duplicate!", "duplicate!"]) "f.txt" 10
        = "(2x) duplicate!..."
      ∧ ("duplicate!" : String).length ≤ 80 := by
  exact ⟨rfl, by decide⟩

theorem pySlice_length_le (s : String) (n : Nat) : (pySlice s n).length ≤ n := by
  show (s.data.take n).length ≤ n
  rw [List.length_take]
  omega

theorem pySlice_of_le (s : String) (n : Nat) (h : s.length ≤ n) : pySlice s n = s := by
  unfold pySlice
  rw [List.take_of_length_le h]

/-- C7 amended: each group's displayed line text is the first-80-character
slice of the stored line, and the three-dot indicator is appended on every
rendered group, including when the original line has at most 80 characters,
in which case the slice is the whole line. -/
theorem amended_C7 (ls : List String) (n : Nat) (g : String × Nat)
    (_hg : g ∈ findDuplicateGroups ls n) :
    renderGroup g = "(" ++ toString g.2 ++ "x) " ++ pySlice g.1 80 ++ "..."
      ∧ (pySlice g.1 80).length ≤ 80
      ∧ (g.1.length ≤ 80 → pySlice g.1 80 = g.1) := by
  exact ⟨rfl, pySlice_length_le g.1 80, fun h => pySlice_of_le g.1 80 h⟩

/-- Witness for the amended C7 theorem at a concrete short duplicated
line. -/
theorem amended_C7_witness :
    (pySlice "duplicate!" 80).length ≤ 80
      ∧ pySlice "duplicate!" 80 = "duplicate!" := by
  have h := amended_C7 ["duplicate!", "duplicate!"] 10 ("duplicate!", 2) (by decide)
  exact ⟨h.2.1, h.2.2 (by decide)⟩

def fsBad : FSView := ⟨false, []⟩

/-- C2 counterexample: with a root that does not exist (or is not a
directory), rglob yields an empty iteration and no exception, so every
tree-based operation returns its ordinary empty-tree result — search_code
the no-matches sentinel as an ok-class value, find_files the no-files
sentinel, count_lines_of_code the all-zero summary, find_todos the
none-found sentinel — and never an error-class result. -/
theorem counterexample_C2 :
    search_code_core ⟨"x", some (fun _ => true)⟩ none fsBad
        = Except.ok ("No matches found for pattern " ++ sq ++ "x" ++ sq)
      ∧ search_code ⟨"x", some (fun _ => true)⟩ none fsBad
          = "No matches found for pattern " ++ sq ++ "x" ++ sq
      ∧ find_files (fun _ => true) "*" fsBad
          = "No files found matching " ++ sq ++ "*" ++ sq
      ∧ count_lines_of_code none fsBad = countJson ⟨[], 0, 0⟩
      ∧ find_todos fsBad = "No TODOs/FIXMEs found" := by
  exact ⟨rfl, rfl, rfl, rfl, rfl⟩

/-- C2 amended: the code never validates the root: for every root that is
missing or not a directory, rglob's empty iteration makes each tree-based
operation return its normal empty-tree result — the no-matches, no-files or
no-TODOs sentinel, or the all-zero count summary — as an ok-class value,
rather than any InvalidRootError-class error result. -/
theorem amended_C2 (fs : FSView) (h : fs.rootValid = false)
    (pat : Pattern) (exts : Option (List String))
    (nameMatch : String → Bool) (patRaw : String) :
    search_code_core pat exts fs
        = Except.ok ("No matches found for pattern " ++ sq ++ pat.raw ++ sq)
      ∧ find_files_core nameMatch patRaw fs
          = Except.ok ("No files found matching " ++ sq ++ patRaw ++ sq)
      ∧ count_lines_core exts fs = Except.ok ⟨[], 0, 0⟩
      ∧ find_todos_core fs = Except.ok "No TODOs/FIXMEs found"
      ∧ search_code pat exts fs
          = "No matches found for pattern " ++ sq ++ pat.raw ++ sq
      ∧ find_files nameMatch patRaw fs
          = "No files found matching " ++ sq ++ patRaw ++ sq
      ∧ count_lines_of_code exts fs = countJson ⟨[], 0, 0⟩
      ∧ find_todos fs = "No TODOs/FIXMEs found" := by
  have hr : pyRglob fs = [] := by simp [pyRglob, h]
  refine ⟨?_, ?_, ?_, ?_, ?_, ?_, ?_, ?_⟩ <;>
    simp [search_code_core, find_files_core, count_lines_core, find_todos_core,
      search_code, find_files, count_lines_of_code, find_todos, hr,
      searchHits, searchHitsFrom, todoHits, countFold]

/-- Witness for the amended C2 theorem at a concrete invalid root. -/
theorem amended_C2_witness :
    search_code_core ⟨"x", some (fun _ => true)⟩ none fsBad
        = Except.ok ("No matches found for pattern " ++ sq ++ "x" ++ sq)
      ∧ find_files_core (fun _ => true) "*" fsBad
          = Except.ok ("No files found matching " ++ sq ++ "*" ++ sq)
      ∧ count_lines_core none fsBad = Except.ok ⟨[], 0, 0⟩
      ∧ find_todos_core fsBad = Except.ok "No TODOs/FIXMEs found"
      ∧ search_code ⟨"x", some (fun _ => true)⟩ none fsBad
          = "No matches found for pattern " ++ sq ++ "x" ++ sq
      ∧ find_files (fun _ => true) "*" fsBad
          = "No files found matching " ++ sq ++ "*" ++ sq
      ∧ count_lines_of_code none fsBad = countJson ⟨[], 0, 0⟩
      ∧ find_todos fsBad = "No TODOs/FIXMEs found" :=
  amended_C2 fsBad rfl ⟨"x", some (fun _ => true)⟩ none (fun _ => true) "*"

/-- The ordering C4 asserts on search hits: file-visit order first, then
ascending line number within one file. -/
def hitOrder (a b : SearchHit) : Prop :=
  a.fileIdx < b.fileIdx ∨ (a.fileIdx = b.fileIdx ∧ a.lineNumber < b.lineNumber)

theorem pairwise_enumFrom_fst {α : Type} :
    ∀ (n : Nat) (l : List α), (List.enumFrom n l).Pairwise (fun p q => p.1 < q.1) := by
  intro n l
  induction l generalizing n with
  | nil => simp [List.enumFrom]
  | cons a rest ih =>
    simp only [List.enumFrom]
    refine List.Pairwise.cons ?_ (ih (n + 1))
    intro q hq
    have := (get_of_mem_enumFrom (n + 1) rest q hq).1
    show n < q.1
    omega

theorem fileLineHits_pairwise (m : String → Bool) (ls : List String) :
    (fileLineHits m ls).Pairwise (fun p q => p.1 < q.1) := by
  unfold fileLineHits
  rw [List.pairwise_map]
  exact (pairwise_enumFrom_fst 1 ls).filter _

theorem fileSearchHits_pairwise (pat : Pattern) (f : FileEntry) :
    (fileSearchHits pat f).Pairwise (fun p q => p.1 < q.1) := by
  unfold fileSearchHits
  split
  · cases pat.compiled with
    | none => simp
    | some m => exact fileLineHits_pairwise m f.lines
  · simp

theorem mem_block_fileIdx (pat : Pattern) (exts : Option (List String)) (k : Nat)
    (f : FileEntry) (a : SearchHit)
    (ha : a ∈ (if includeFile exts f then
        (fileSearchHits pat f).map (fun h => (⟨k, f.path, h.1, h.2⟩ : SearchHit))
      else [])) :
    a.fileIdx = k := by
  split at ha
  · obtain ⟨q, _, rfl⟩ := List.mem_map.1 ha
    rfl
  · simp at ha

theorem searchHitsFrom_fileIdx_ge (pat : Pattern) (exts : Option (List String)) :
    ∀ (k : Nat) (files : List FileEntry) (h : SearchHit),
      h ∈ searchHitsFrom pat exts k files → k ≤ h.fileIdx := by
  intro k files
  induction files generalizing k with
  | nil => intro h hh; simp [searchHitsFrom] at hh
  | cons f rest ih =>
    intro h hh
    unfold searchHitsFrom at hh
    rw [List.mem_append] at hh
    rcases hh with hh | hh
    · rw [mem_block_fileIdx pat exts k f h hh]
    · have := ih (k + 1) h hh
      omega

theorem searchHitsFrom_pairwise (pat : Pattern) (exts : Option (List String)) :
    ∀ (k : Nat) (files : List FileEntry),
      (searchHitsFrom pat exts k files).Pairwise hitOrder := by
  intro k files
  induction files generalizing k with
  | nil => simp [searchHitsFrom]
  | cons f rest ih =>
    unfold searchHitsFrom
    rw [List.pairwise_append]
    refine ⟨?_, ih (k + 1), ?_⟩
    · split
      · rw [List.pairwise_map]
        refine (fileSearchHits_pairwise pat f).imp ?_
        intro p q hpq
        exact Or.inr ⟨rfl, hpq⟩
      · simp
    · intro a ha b hb
      have hbk : k + 1 ≤ b.fileIdx := searchHitsFrom_fileIdx_ge pat exts (k + 1) rest b hb
      have hak : a.fileIdx = k := mem_block_fileIdx pat exts k f a ha
      exact Or.inl (by omega)

/-- C4: search_code returns at most 100 hits (results[:100]), the reported
hits are the first hundred in accumulation order, and that order is
file-visit order first and ascending line number within one file. -/
theorem claim_C4 (pat : Pattern) (exts : Option (List String)) (files : List FileEntry) :
    ((searchHits pat exts files).take 100).length ≤ 100
      ∧ ((searchHits pat exts files).take 100).Pairwise hitOrder
      ∧ ((searchHits pat exts files).map formatHit).take 100
          = ((searchHits pat exts files).take 100).map formatHit := by
  refine ⟨?_, ?_, ?_⟩
  · rw [List.length_take]
    omega
  · exact (searchHitsFrom_pairwise pat exts 0 files).sublist (List.take_sublist 100 _)
  · rw [List.map_take]

theorem filter_orderedInsert_count (c : Nat) (a : String × Nat) :
    ∀ (s : List (String × Nat)),
      (List.orderedInsert cntGe a s).filter (fun p => decide (p.2 = c))
        = if a.2 = c then a :: s.filter (fun p => decide (p.2 = c))
          else s.filter (fun p => decide (p.2 = c)) := by
  intro s
  induction s with
  | nil => by_cases h : a.2 = c <;> simp [List.orderedInsert, h]
  | cons b s ih =>
    by_cases hab : cntGe a b
    · rw [List.orderedInsert_of_le cntGe s hab]
      by_cases hac : a.2 = c <;> simp [List.filter_cons, hac]
    · simp only [List.orderedInsert, if_neg hab]
      have hlt : a.2 < b.2 := Nat.lt_of_not_le hab
      by_cases hac : a.2 = c
      · have hbc : ¬(b.2 = c) := by omega
        simp [List.filter_cons, hac, hbc, ih]
      · by_cases hbc : b.2 = c <;> simp [List.filter_cons, hac, hbc, ih]

theorem filter_insertionSort_count (c : Nat) :
    ∀ (l : List (String × Nat)),
      (List.insertionSort cntGe l).filter (fun p => decide (p.2 = c))
        = l.filter (fun p => decide (p.2 = c)) := by
  intro l
  induction l with
  | nil => rfl
  | cons a l ih =>
    simp only [List.insertionSort]
    rw [filter_orderedInsert_count c a]
    by_cases hac : a.2 = c <;> simp [List.filter_cons, hac, ih]

/-- C5: find_duplicate_lines reports at most 20 groups, every reported
group has occurrence count strictly greater than 1, the groups are ordered
by count descending, and the sort is stable: for each count value the
groups carrying it stay in the order of the pre-sort duplicates dict, which
lists keys by first occurrence. -/
theorem claim_C5 (ls : List String) (n : Nat) :
    (findDuplicateGroups ls n).length ≤ 20
      ∧ (∀ g ∈ findDuplicateGroups ls n, 1 < g.2)
      ∧ (findDuplicateGroups ls n).Pairwise cntGe
      ∧ ∀ (c : Nat),
          (dupSorted ls n).filter (fun p => decide (p.2 = c))
            = (dupFiltered ls n).filter (fun p => decide (p.2 = c)) := by
  refine ⟨?_, ?_, ?_, ?_⟩
  · rw [findDuplicateGroups, List.length_take]
    omega
  · intro g hg
    have h1 : g ∈ dupSorted ls n := List.take_subset _ _ hg
    have h2 : g ∈ dupFiltered ls n :=
      (List.Perm.mem_iff (List.perm_insertionSort cntGe _)).1 h1
    have h3 := List.of_mem_filter h2
    simpa using h3
  · exact (List.sorted_insertionSort cntGe _).sublist (List.take_sublist _ _)
  · intro c
    exact filter_insertionSort_count c _

/-- Witness for C5 at a concrete file with one duplicated long-enough
line. -/
theorem claim_C5_witness :
    1 < (("abcdefghij", 2) : String × Nat).2
      ∧ (findDuplicateGroups ["abcdefghij", "abcdefghij"] 10).length ≤ 20
      ∧ (dupSorted ["abcdefghij", "abcdefghij"] 10).filter (fun p => decide (p.2 = 2))
          = (dupFiltered ["abcdefghij", "abcdefghij"] 10).filter
              (fun p => decide (p.2 = 2)) := by
  have h := claim_C5 ["abcdefghij", "abcdefghij"] 10
  exact ⟨h.2.1 ("abcdefghij", 2) (by decide), h.1, h.2.2.2 2⟩

theorem noDot_suffix (name : String) (h : name.data.contains '.' = false) :
    pySuffix name = "" := by
  have hm : ('.' : Char) ∉ name.data.reverse := by
    rw [List.mem_reverse]
    intro hmem
    have : name.data.contains '.' = true := by
      simpa using hmem
    rw [h] at this
    exact Bool.false_ne_true this
  have hj : name.data.reverse.indexOf '.' = name.data.reverse.length :=
    List.indexOf_eq_length.2 hm
  unfold pySuffix
  rw [hj, List.length_reverse]
  simp

theorem noDot_include (l : List String) (hne : l ≠ []) (hnil : ("" : String) ∉ l)
    (f : FileEntry) (h : f.name.data.contains '.' = false) :
    includeFile (some l) f = false := by
  have h1 : l.isEmpty = false := by
    cases l with
    | nil => exact absurd rfl hne
    | cons a as => rfl
  have h2 : l.contains (pyDropOne "") = false := by
    show l.contains "" = false
    simpa using hnil
  simp only [includeFile, extFilterPass, bareExt, noDot_suffix f.name h, h1, h2]
  simp

theorem searchHitsFrom_format (pat : Pattern) (exts : Option (List String)) :
    ∀ (k j : Nat) (files : List FileEntry),
      (searchHitsFrom pat exts k files).map formatHit
        = (searchHitsFrom pat exts j files).map formatHit := by
  intro k j files
  induction files generalizing k j with
  | nil => rfl
  | cons f rest ih =>
    unfold searchHitsFrom
    rw [List.map_append, List.map_append, ih (k + 1) (j + 1)]
    congr 1
    split
    · rw [List.map_map, List.map_map]
      rfl
    · rfl

theorem searchHitsFrom_dotFilter (pat : Pattern) (l : List String)
    (hne : l ≠ []) (hnil : ("" : String) ∉ l) :
    ∀ (k : Nat) (files : List FileEntry),
      (searchHitsFrom pat (some l) k files).map formatHit
        = (searchHitsFrom pat (some l) k
            (files.filter (fun f => f.name.data.contains '.'))).map formatHit := by
  intro k files
  induction files generalizing k with
  | nil => rfl
  | cons f rest ih =>
    by_cases hd : f.name.data.contains '.' = true
    · have hf : List.filter (fun g => g.name.data.contains '.') (f :: rest)
          = f :: List.filter (fun g => g.name.data.contains '.') rest := by
        have hm : ('.' : Char) ∈ f.name.data := by simpa using hd
        simp [List.filter_cons, hm]
      rw [hf]
      simp only [searchHitsFrom]
      rw [List.map_append, List.map_append, ih (k + 1)]
    · have hd2 : f.name.data.contains '.' = false := by simpa using hd
      have hf : List.filter (fun g => g.name.data.contains '.') (f :: rest)
          = List.filter (fun g => g.name.data.contains '.') rest := by
        have hm : ('.' : Char) ∉ f.name.data := by simpa using hd2
        simp [List.filter_cons, hm]
      rw [hf]
      simp only [searchHitsFrom]
      rw [List.map_append]
      rw [if_neg (show ¬(includeFile (some l) f = true) by
        rw [noDot_include l hne hnil f hd2]
        exact Bool.false_ne_true)]
      simp only [List.map_nil, List.nil_append]
      rw [searchHitsFrom_format pat (some l) (k + 1) k rest]
      exact ih k

theorem countFold_dotFilter (l : List String)
    (hne : l ≠ []) (hnil : ("" : String) ∉ l) :
    ∀ (files : List FileEntry) (acc : CountAcc),
      files.foldl (countStep (some l)) acc
        = (files.filter (fun f => f.name.data.contains '.')).foldl
            (countStep (some l)) acc := by
  intro files
  induction files with
  | nil => intro acc; rfl
  | cons f rest ih =>
    intro acc
    by_cases hd : f.name.data.contains '.' = true
    · have hf : List.filter (fun g => g.name.data.contains '.') (f :: rest)
          = f :: List.filter (fun g => g.name.data.contains '.') rest := by
        have hm : ('.' : Char) ∈ f.name.data := by simpa using hd
        simp [List.filter_cons, hm]
      rw [hf]
      simp only [List.foldl_cons]
      exact ih _
    · have hd2 : f.name.data.contains '.' = false := by simpa using hd
      have hf : List.filter (fun g => g.name.data.contains '.') (f :: rest)
          = List.filter (fun g => g.name.data.contains '.') rest := by
        have hm : ('.' : Char) ∉ f.name.data := by simpa using hd2
        simp [List.filter_cons, hm]
      rw [hf]
      simp only [List.foldl_cons]
      have hstep : countStep (some l) acc f = acc := by
        simp [countStep, noDot_include l hne hnil f hd2]
      rw [hstep]
      exact ih acc

/-- C10: under a non-empty extension filter whose entries are all
non-empty, a file whose name contains no dot has empty suffix and is
excluded: dropping all such files changes neither the rendered search
results nor the count summary; while with no filter supplied the same
file's lines are counted under the no-extension sentinel bucket. -/
theorem claim_C10 (pat : Pattern) (l : List String) (files : List FileEntry)
    (hne : l ≠ []) (hnil : ("" : String) ∉ l) :
    (searchHits pat (some l) files).map formatHit
        = (searchHits pat (some l)
            (files.filter (fun f => f.name.data.contains '.'))).map formatHit
      ∧ countFold (some l) files
          = countFold (some l) (files.filter (fun f => f.name.data.contains '.'))
      ∧ ∀ (f : FileEntry), f.name.data.contains '.' = false → f.isFile = true →
          f.readable = true →
          countFold none [f] = ⟨[("no extension", f.lines.length)], f.lines.length, 1⟩ := by
  refine ⟨searchHitsFrom_dotFilter pat l hne hnil 0 files,
    countFold_dotFilter l hne hnil files ⟨[], 0, 0⟩, ?_⟩
  intro f hd hif hr
  have hinc : includeFile none f = true := by
    simp [includeFile, extFilterPass, hif]
  have hek : extKey f = "no extension" := by
    simp only [extKey, bareExt, noDot_suffix f.name hd]
    rfl
  unfold countFold
  simp only [List.foldl_cons, List.foldl_nil]
  simp [countStep, hinc, hr, hek, bump]

def noDotFileW : FileEntry := ⟨"./README", "README", true, true, ["alpha"]⟩

def pyFileW : FileEntry := ⟨"./a.py", "a.py", true, true, ["alpha"]⟩

/-- Witness for C10 at a concrete filter and a concrete two-file tree. -/
theorem claim_C10_witness :
    (searchHits ⟨"a", some (fun _ => true)⟩ (some ["py"]) [noDotFileW, pyFileW]).map formatHit
        = (searchHits ⟨"a", some (fun _ => true)⟩ (some ["py"])
            ([noDotFileW, pyFileW].filter (fun f => f.name.data.contains '.'))).map formatHit
      ∧ countFold (some ["py"]) [noDotFileW, pyFileW]
          = countFold (some ["py"])
              ([noDotFileW, pyFileW].filter (fun f => f.name.data.contains '.'))
      ∧ countFold none [noDotFileW]
          = ⟨[("no extension", noDotFileW.lines.length)], noDotFileW.lines.length, 1⟩ := by
  have h := claim_C10 ⟨"a", some (fun _ => true)⟩ ["py"] [noDotFileW, pyFileW]
    (by decide) (by decide)
  exact ⟨h.1, h.2.1, h.2.2 noDotFileW rfl rfl rfl⟩

end SWDevMCP
